import Mathlib

/-!
Shallow embedding of the Solidity contract `SecondOp_FHE` (file
`contracts/SecondOp_FHE.sol`): a registry of medical cases keyed by a string
`caseId`, holding an FHE-encrypted diagnosis handle that can later be verified
against a decryption attestation.

Solidity specifics modelled explicitly:
  * `mapping(string => MedicalCase)` returns the all-zero struct for absent
    keys; we model the mapping as an association list with a defaulting lookup.
  * `require(cond, msg)` reverts the whole transaction when `cond` is false;
    operations return `Except ContractError ContractState`, and an external
    call that reverts leaves the pre-state untouched (`execAction`).
  * The FHE coprocessor calls (`FHE.fromExternal`, `FHE.isInitialized`,
    `FHE.checkSignatures`) are external capabilities; they are modelled as an
    environment of pure functions (`FHEEnv`).  The ACL effects of
    `FHE.allowThis` / `FHE.makePubliclyDecryptable` are recorded in the state.
  * `abi.decode(bytes, (uint32))` reverts when fewer than 32 bytes are
    available or when the upper 28 bytes of the word are not zero; otherwise it
    reads the low 4 bytes big-endian (trailing bytes are ignored).
-/

namespace SecondOpFHE

/-- Solidity `bytes`, modelled as a list of byte values. -/
abbrev Bytes := List Nat

/-- The `MedicalCase` struct of the contract.  `euint32` handles and
`address`/`uint256` values are modelled as `Nat`. -/
structure MedicalCase where
  patientId : String
  encryptedDiagnosis : Nat
  caseId : Nat
  medicalHistory : String
  specialist : Nat
  timestamp : Nat
  decryptedDiagnosis : Nat
  isVerified : Bool
deriving DecidableEq, Repr

/-- The all-zero struct a Solidity mapping yields for an absent key. -/
def emptyCase : MedicalCase :=
  { patientId := "", encryptedDiagnosis := 0, caseId := 0, medicalHistory := "",
    specialist := 0, timestamp := 0, decryptedDiagnosis := 0, isVerified := false }

/-- The external FHE coprocessor: ciphertext admission (`fromExternal`, which
reverts on a bad input proof, hence `Option`), handle initialisation check, and
decryption-attestation signature checking. -/
structure FHEEnv where
  fromExternal : Bytes → Bytes → Option Nat
  isInitialized : Nat → Bool
  checkSignatures : List Nat → Bytes → Bytes → Bool

/-- Contract storage: the `medicalCases` mapping, the `caseIds` array, and the
coprocessor ACL sets fed by `FHE.allowThis` / `FHE.makePubliclyDecryptable`. -/
structure ContractState where
  medicalCases : List (String × MedicalCase)
  caseIds : List String
  aclAllowThis : List Nat
  aclPubliclyDecryptable : List Nat
deriving DecidableEq, Repr

/-- Storage state right after deployment. -/
def initialState : ContractState :=
  { medicalCases := [], caseIds := [], aclAllowThis := [], aclPubliclyDecryptable := [] }

/-- `medicalCases[k]`: defaulting mapping lookup. -/
def lookupCase (m : List (String × MedicalCase)) (k : String) : MedicalCase :=
  match m.find? (fun p => p.1 == k) with
  | some p => p.2
  | none => emptyCase

/-- `medicalCases[k] = v`: mapping assignment. -/
def setCase (m : List (String × MedicalCase)) (k : String) (v : MedicalCase) :
    List (String × MedicalCase) :=
  match m with
  | [] => [(k, v)]
  | (k0, v0) :: rest => if k0 == k then (k, v) :: rest else (k0, v0) :: setCase rest k v

/-- Failure modes of the two mutating entry points (the `require` messages of
the contract, plus the reverts raised inside the coprocessor and `abi.decode`). -/
inductive ContractError where
  | AlreadyExists
  | InvalidCiphertext
  | NotFound
  | AlreadyVerified
  | InvalidAttestation
  | MalformedInput
deriving DecidableEq, Repr

/-- The revert reason string carried by each failure (for the two coprocessor
reverts the contract supplies no string of its own). -/
def ContractError.message : ContractError → String
  | .AlreadyExists => "Medical case already exists"
  | .InvalidCiphertext => "Invalid encrypted diagnosis"
  | .NotFound => "Medical case does not exist"
  | .AlreadyVerified => "Diagnosis already verified"
  | .InvalidAttestation => "FHE.checkSignatures reverted"
  | .MalformedInput => "abi.decode reverted"

/-- `abi.decode(data, (uint32))`: needs at least one 32-byte word whose upper
28 bytes are clean; yields the low 4 bytes big-endian. -/
def abiDecodeUint32 (data : Bytes) : Option Nat :=
  match data with
  | 0 :: 0 :: 0 :: 0 :: 0 :: 0 :: 0 :: 0 :: 0 :: 0 :: 0 :: 0 :: 0 :: 0 :: 0 :: 0 ::
    0 :: 0 :: 0 :: 0 :: 0 :: 0 :: 0 :: 0 :: 0 :: 0 :: 0 :: 0 ::
    b3 :: b2 :: b1 :: b0 :: _ =>
      some (((b3 * 256 + b2) * 256 + b1) * 256 + b0)
  | _ => none

/-- The canonical `abi.encode` of a `uint32` value `v`: one 32-byte word,
big-endian, upper 28 bytes zero. -/
def encodeUint32 (v : Nat) : Bytes :=
  [0, 0, 0, 0, 0, 0, 0, 0, 0, 0, 0, 0, 0, 0, 0, 0, 0, 0, 0, 0, 0, 0, 0, 0,
   0, 0, 0, 0, v / 16777216 % 256, v / 65536 % 256, v / 256 % 256, v % 256]

/-- `createMedicalCase(caseId, patientId, encryptedDiagnosis, inputProof,
caseIdentifier, medicalHistory)` with ambient `msg.sender` and
`block.timestamp`. -/
def createMedicalCase (env : FHEEnv) (s : ContractState)
    (caseId patientId : String) (encryptedDiagnosis inputProof : Bytes)
    (caseIdentifier : Nat) (medicalHistory : String)
    (msgSender blockTimestamp : Nat) : Except ContractError ContractState :=
  -- require(bytes(medicalCases[caseId].patientId).length == 0, "Medical case already exists")
  if (lookupCase s.medicalCases caseId).patientId ≠ "" then .error .AlreadyExists
  else
    -- FHE.fromExternal(encryptedDiagnosis, inputProof) reverts on an invalid input proof
    match env.fromExternal encryptedDiagnosis inputProof with
    | none => .error .InvalidCiphertext
    | some handle =>
      -- require(FHE.isInitialized(...), "Invalid encrypted diagnosis")
      if ¬ env.isInitialized handle then .error .InvalidCiphertext
      else
        let record : MedicalCase :=
          { patientId := patientId, encryptedDiagnosis := handle,
            caseId := caseIdentifier, medicalHistory := medicalHistory,
            specialist := msgSender, timestamp := blockTimestamp,
            decryptedDiagnosis := 0, isVerified := false }
        .ok { medicalCases := setCase s.medicalCases caseId record,
              caseIds := s.caseIds ++ [caseId],
              -- FHE.allowThis(medicalCases[caseId].encryptedDiagnosis)
              aclAllowThis := s.aclAllowThis ++ [handle],
              -- FHE.makePubliclyDecryptable(medicalCases[caseId].encryptedDiagnosis)
              aclPubliclyDecryptable := s.aclPubliclyDecryptable ++ [handle] }

/-- The in-place storage write of `verifyDiagnosis`: set `decryptedDiagnosis`
and `isVerified`, leaving every other field of the struct alone. -/
def verifiedUpdate (c : MedicalCase) (v : Nat) : MedicalCase :=
  { c with decryptedDiagnosis := v, isVerified := true }

/-- `verifyDiagnosis(caseId, abiEncodedClearDiagnosis, decryptionProof)` with
ambient `msg.sender` (which the body never reads). -/
def verifyDiagnosis (env : FHEEnv) (s : ContractState)
    (caseId : String) (abiEncodedClearDiagnosis decryptionProof : Bytes)
    (msgSender : Nat) : Except ContractError ContractState :=
  -- require(bytes(medicalCases[caseId].patientId).length > 0, "Medical case does not exist")
  if (lookupCase s.medicalCases caseId).patientId = "" then .error .NotFound
  -- require(!medicalCases[caseId].isVerified, "Diagnosis already verified")
  else if (lookupCase s.medicalCases caseId).isVerified then .error .AlreadyVerified
  -- FHE.checkSignatures(cts, abiEncodedClearDiagnosis, decryptionProof) reverts on mismatch
  else if ¬ env.checkSignatures [(lookupCase s.medicalCases caseId).encryptedDiagnosis]
            abiEncodedClearDiagnosis decryptionProof then .error .InvalidAttestation
  else
    -- uint32 decodedDiagnosis = abi.decode(abiEncodedClearDiagnosis, (uint32))
    match abiDecodeUint32 abiEncodedClearDiagnosis with
    | none => .error .MalformedInput
    | some decodedDiagnosis =>
      -- medicalCases[caseId].decryptedDiagnosis = decodedDiagnosis;
      -- medicalCases[caseId].isVerified = true;
      let updated := verifiedUpdate (lookupCase s.medicalCases caseId) decodedDiagnosis
      .ok { s with medicalCases := setCase s.medicalCases caseId updated }

/-- `getEncryptedDiagnosis(caseId)` (view). -/
def getEncryptedDiagnosis (s : ContractState) (caseId : String) :
    Except ContractError Nat :=
  if (lookupCase s.medicalCases caseId).patientId = "" then .error .NotFound
  else .ok (lookupCase s.medicalCases caseId).encryptedDiagnosis

/-- `getMedicalCase(caseId)` (view): the 7-tuple the contract returns. -/
def getMedicalCase (s : ContractState) (caseId : String) :
    Except ContractError (String × Nat × String × Nat × Nat × Bool × Nat) :=
  if (lookupCase s.medicalCases caseId).patientId = "" then .error .NotFound
  else
    .ok ((lookupCase s.medicalCases caseId).patientId,
         (lookupCase s.medicalCases caseId).caseId,
         (lookupCase s.medicalCases caseId).medicalHistory,
         (lookupCase s.medicalCases caseId).specialist,
         (lookupCase s.medicalCases caseId).timestamp,
         (lookupCase s.medicalCases caseId).isVerified,
         (lookupCase s.medicalCases caseId).decryptedDiagnosis)

/-- `getAllCaseIds()` (view). -/
def getAllCaseIds (s : ContractState) : List String := s.caseIds

/-- `isAvailable()` (pure). -/
def isAvailable : Bool := true

/-- One external transaction against the contract. -/
inductive Action where
  | create (caseId patientId : String) (encryptedDiagnosis inputProof : Bytes)
      (caseIdentifier : Nat) (medicalHistory : String) (msgSender blockTimestamp : Nat)
  | verify (caseId : String) (abiEncodedClearDiagnosis decryptionProof : Bytes)
      (msgSender : Nat)

/-- Dispatch an action to the corresponding entry point. -/
def runAction (env : FHEEnv) (s : ContractState) : Action → Except ContractError ContractState
  | .create cid pid ct pf n mh snd ts => createMedicalCase env s cid pid ct pf n mh snd ts
  | .verify cid clear pf snd => verifyDiagnosis env s cid clear pf snd

/-- EVM transaction semantics: a reverted call leaves storage untouched. -/
def execAction (env : FHEEnv) (s : ContractState) (a : Action) : ContractState :=
  match runAction env s a with
  | .ok s2 => s2
  | .error _ => s

/-- Run a sequence of transactions. -/
def execTrace (env : FHEEnv) (s : ContractState) : List Action → ContractState
  | [] => s
  | a :: rest => execTrace env (execAction env s a) rest

/-- Whether a call result is a success. -/
def exceptOk : Except ContractError ContractState → Bool
  | .ok _ => true
  | .error _ => false

/-- The `caseId`s of the successful `createMedicalCase` transactions of a
trace, in execution order. -/
def insertedIds (env : FHEEnv) (s : ContractState) : List Action → List String
  | [] => []
  | a :: rest =>
    match a with
    | .create cid _ _ _ _ _ _ _ =>
      if exceptOk (runAction env s a) then cid :: insertedIds env (execAction env s a) rest
      else insertedIds env (execAction env s a) rest
    | .verify _ _ _ _ => insertedIds env (execAction env s a) rest

/-- `a` is a `create` for key `id` that succeeds when run in state `s`. -/
def successfulCreateOf (env : FHEEnv) (s : ContractState) (a : Action) (id : String) : Bool :=
  match a with
  | .create cid _ _ _ _ _ _ _ => cid == id && exceptOk (runAction env s a)
  | .verify _ _ _ _ => false

/-- No transaction of the trace, run from `s`, is a successful `create` for
key `id`. -/
def neverCreated (env : FHEEnv) (s : ContractState) (tr : List Action) (id : String) : Bool :=
  match tr with
  | [] => true
  | a :: rest => !(successfulCreateOf env s a id) && neverCreated env (execAction env s a) rest id

/-- Every `create` of the trace carries a non-empty `patientId`. -/
def nonEmptyPatientOnCreate : Action → Bool
  | .create _ pid _ _ _ _ _ _ => !(pid == "")
  | .verify _ _ _ _ => true

/-- All `create` transactions of the trace carry a non-empty `patientId`. -/
def allCreatesNonEmptyPatient (tr : List Action) : Bool :=
  tr.all nonEmptyPatientOnCreate

/-- The trace consists of `verifyDiagnosis` transactions only. -/
def allVerify (tr : List Action) : Bool :=
  tr.all (fun a => match a with | .verify _ _ _ _ => true | .create _ _ _ _ _ _ _ _ => false)

/-- The six fields of a `MedicalCase` that are written only at creation. -/
def immutableFieldsEq (c c2 : MedicalCase) : Prop :=
  c2.patientId = c.patientId ∧ c2.encryptedDiagnosis = c.encryptedDiagnosis ∧
  c2.caseId = c.caseId ∧ c2.medicalHistory = c.medicalHistory ∧
  c2.specialist = c.specialist ∧ c2.timestamp = c.timestamp

/-- With non-empty patient ids, the id array has no duplicates and every
listed id names a present record. -/
def GoodState (s : ContractState) : Prop :=
  s.caseIds.Nodup ∧ ∀ id ∈ s.caseIds, (lookupCase s.medicalCases id).patientId ≠ ""

/-! ### Concrete FHE environments and states for closed-instance theorems -/

/-- A coprocessor that accepts everything (every admission yields handle 1 and
every attestation is accepted). -/
def acceptEnv : FHEEnv :=
  { fromExternal := fun _ _ => some 1, isInitialized := fun _ => true,
    checkSignatures := fun _ _ _ => true }

/-- A coprocessor that rejects every ciphertext admission. -/
def rejectEnv : FHEEnv :=
  { fromExternal := fun _ _ => none, isInitialized := fun _ => true,
    checkSignatures := fun _ _ _ => true }

/-- A `create` with an EMPTY `patientId` for key "X". -/
def createX0 : Action := .create "X" "" [2] [3] 0 "" 4 5

/-- A second `create` for key "X", now with a non-empty `patientId`. -/
def createX1 : Action := .create "X" "p2" [2] [3] 1 "h2" 2 3

/-- State after `createX0` from deployment under `acceptEnv`. -/
def stateX0 : ContractState := execAction acceptEnv initialState createX0

/-- State after `createX0; createX1` from deployment under `acceptEnv`. -/
def stateX01 : ContractState := execAction acceptEnv stateX0 createX1

/-- A `create` with a non-empty `patientId` for key "A". -/
def createA : Action := .create "A" "p" [2] [3] 5 "h" 7 11

/-- State after `createA` from deployment under `acceptEnv`. -/
def stateA : ContractState := execAction acceptEnv initialState createA

/-- State after `createA` and a successful verification of "A" with cleartext
value 9, under `acceptEnv`. -/
def stateA9 : ContractState := execAction acceptEnv stateA (.verify "A" (encodeUint32 9) [6] 13)

/-- A `create` with a non-empty `patientId` for key "B". -/
def createB : Action := .create "B" "q" [2] [3] 6 "i" 8 12

/-- A `create` with a non-empty `patientId` for key "C". -/
def createC : Action := .create "C" "r" [2] [3] 7 "j" 9 13

/-- State after `createA; createB` from deployment under `acceptEnv`. -/
def stateAB : ContractState := execAction acceptEnv stateA createB

/-- State after `createA; createB; createC` from deployment under `acceptEnv`. -/
def stateABC : ContractState := execAction acceptEnv stateAB createC

/-! ### Mapping lemmas -/

theorem lookupCase_cons (k0 : String) (v0 : MedicalCase)
    (m : List (String × MedicalCase)) (k : String) :
    lookupCase ((k0, v0) :: m) k = if k0 == k then v0 else lookupCase m k := by
  by_cases h : (k0 == k) = true
  · simp [lookupCase, List.find?, h]
  · rw [Bool.not_eq_true] at h
    simp [lookupCase, List.find?, h]

theorem lookupCase_setCase_self (m : List (String × MedicalCase))
    (k : String) (v : MedicalCase) :
    lookupCase (setCase m k v) k = v := by
  induction m with
  | nil => simp [setCase, lookupCase_cons, lookupCase]
  | cons p rest ih =>
    obtain ⟨k0, v0⟩ := p
    rw [setCase]
    by_cases h : (k0 == k) = true
    · simp [h, lookupCase_cons]
    · rw [Bool.not_eq_true] at h
      simp [h, lookupCase_cons, ih]

theorem lookupCase_setCase_ne (m : List (String × MedicalCase))
    (k k' : String) (v : MedicalCase) (hne : k' ≠ k) :
    lookupCase (setCase m k v) k' = lookupCase m k' := by
  have hkk : (k == k') = false := by
    simp only [beq_eq_false_iff_ne]; exact fun h => hne h.symm
  induction m with
  | nil => simp [setCase, lookupCase_cons, hkk, lookupCase]
  | cons p rest ih =>
    obtain ⟨k0, v0⟩ := p
    rw [setCase]
    by_cases h : (k0 == k) = true
    · have hk0 : k0 = k := by simpa using h
      subst hk0
      simp [lookupCase_cons, hkk]
    · rw [Bool.not_eq_true] at h
      simp only [h, Bool.false_eq_true, if_false, lookupCase_cons, ih]

/-! ### Inversion lemmas for the two entry points -/

theorem createMedicalCase_ok (env : FHEEnv) (s : ContractState)
    (cid pid : String) (ct pf : Bytes) (n : Nat) (mh : String) (sd ts : Nat)
    (s1 : ContractState)
    (h : createMedicalCase env s cid pid ct pf n mh sd ts = .ok s1) :
    (lookupCase s.medicalCases cid).patientId = "" ∧
    ∃ hdl, env.fromExternal ct pf = some hdl ∧ env.isInitialized hdl = true ∧
      s1 = { medicalCases := setCase s.medicalCases cid
               { patientId := pid, encryptedDiagnosis := hdl, caseId := n,
                 medicalHistory := mh, specialist := sd, timestamp := ts,
                 decryptedDiagnosis := 0, isVerified := false },
             caseIds := s.caseIds ++ [cid],
             aclAllowThis := s.aclAllowThis ++ [hdl],
             aclPubliclyDecryptable := s.aclPubliclyDecryptable ++ [hdl] } := by
  simp only [createMedicalCase] at h
  split at h
  · exact Except.noConfusion h
  · next hne =>
    have hempty : (lookupCase s.medicalCases cid).patientId = "" := by
      by_contra hc; exact hne hc
    refine ⟨hempty, ?_⟩
    split at h
    · exact Except.noConfusion h
    · next hdl hfe =>
      split at h
      · exact Except.noConfusion h
      · next hinit =>
        have hinit' : env.isInitialized hdl = true := by
          by_contra hc
          exact hinit (by simpa using hc)
        refine ⟨hdl, hfe, hinit', ?_⟩
        simpa using h.symm

theorem verifyDiagnosis_ok (env : FHEEnv) (s : ContractState)
    (cid : String) (clear dpf : Bytes) (snd : Nat) (s1 : ContractState)
    (h : verifyDiagnosis env s cid clear dpf snd = .ok s1) :
    (lookupCase s.medicalCases cid).patientId ≠ "" ∧
    (lookupCase s.medicalCases cid).isVerified = false ∧
    env.checkSignatures [(lookupCase s.medicalCases cid).encryptedDiagnosis]
      clear dpf = true ∧
    ∃ v, abiDecodeUint32 clear = some v ∧
      s1 = { s with medicalCases := setCase s.medicalCases cid (verifiedUpdate (lookupCase s.medicalCases cid) v) } := by
  simp only [verifyDiagnosis] at h
  split at h
  · exact Except.noConfusion h
  · next hne =>
    refine ⟨hne, ?_⟩
    split at h
    · exact Except.noConfusion h
    · next hver =>
      refine ⟨by simpa using hver, ?_⟩
      split at h
      · exact Except.noConfusion h
      · next hsig =>
        have hsig' : env.checkSignatures
            [(lookupCase s.medicalCases cid).encryptedDiagnosis] clear dpf = true := by
          by_contra hc
          exact hsig (by simpa using hc)
        refine ⟨hsig', ?_⟩
        split at h
        · exact Except.noConfusion h
        · next v hdec =>
          refine ⟨v, hdec, ?_⟩
          simpa using h.symm

theorem createMedicalCase_ok_caseIds (env : FHEEnv) (s : ContractState)
    (cid pid : String) (ct pf : Bytes) (n : Nat) (mh : String) (sd ts : Nat)
    (s1 : ContractState)
    (h : createMedicalCase env s cid pid ct pf n mh sd ts = .ok s1) :
    s1.caseIds = s.caseIds ++ [cid] := by
  obtain ⟨-, hdl, -, -, hs1⟩ := createMedicalCase_ok env s cid pid ct pf n mh sd ts s1 h
  rw [hs1]

theorem createMedicalCase_ok_lookup_self (env : FHEEnv) (s : ContractState)
    (cid pid : String) (ct pf : Bytes) (n : Nat) (mh : String) (sd ts : Nat)
    (s1 : ContractState)
    (h : createMedicalCase env s cid pid ct pf n mh sd ts = .ok s1) :
    ∃ hdl, env.fromExternal ct pf = some hdl ∧
      lookupCase s1.medicalCases cid =
        { patientId := pid, encryptedDiagnosis := hdl, caseId := n,
          medicalHistory := mh, specialist := sd, timestamp := ts,
          decryptedDiagnosis := 0, isVerified := false } := by
  obtain ⟨-, hdl, hfe, -, hs1⟩ := createMedicalCase_ok env s cid pid ct pf n mh sd ts s1 h
  exact ⟨hdl, hfe, by rw [hs1]; exact lookupCase_setCase_self _ _ _⟩

theorem createMedicalCase_ok_lookup_ne (env : FHEEnv) (s : ContractState)
    (cid pid : String) (ct pf : Bytes) (n : Nat) (mh : String) (sd ts : Nat)
    (s1 : ContractState)
    (h : createMedicalCase env s cid pid ct pf n mh sd ts = .ok s1)
    (id : String) (hid : id ≠ cid) :
    lookupCase s1.medicalCases id = lookupCase s.medicalCases id := by
  obtain ⟨-, hdl, -, -, hs1⟩ := createMedicalCase_ok env s cid pid ct pf n mh sd ts s1 h
  rw [hs1]
  exact lookupCase_setCase_ne _ _ _ _ hid

theorem verifyDiagnosis_ok_caseIds (env : FHEEnv) (s : ContractState)
    (cid : String) (clear dpf : Bytes) (snd : Nat) (s1 : ContractState)
    (h : verifyDiagnosis env s cid clear dpf snd = .ok s1) :
    s1.caseIds = s.caseIds := by
  obtain ⟨-, -, -, v, -, hs1⟩ := verifyDiagnosis_ok env s cid clear dpf snd s1 h
  rw [hs1]

theorem verifyDiagnosis_ok_lookup_self (env : FHEEnv) (s : ContractState)
    (cid : String) (clear dpf : Bytes) (snd : Nat) (s1 : ContractState)
    (h : verifyDiagnosis env s cid clear dpf snd = .ok s1) :
    ∃ v, abiDecodeUint32 clear = some v ∧
      lookupCase s1.medicalCases cid = verifiedUpdate (lookupCase s.medicalCases cid) v := by
  obtain ⟨-, -, -, v, hdec, hs1⟩ := verifyDiagnosis_ok env s cid clear dpf snd s1 h
  exact ⟨v, hdec, by rw [hs1]; exact lookupCase_setCase_self _ _ _⟩

theorem verifyDiagnosis_ok_lookup_ne (env : FHEEnv) (s : ContractState)
    (cid : String) (clear dpf : Bytes) (snd : Nat) (s1 : ContractState)
    (h : verifyDiagnosis env s cid clear dpf snd = .ok s1)
    (id : String) (hid : id ≠ cid) :
    lookupCase s1.medicalCases id = lookupCase s.medicalCases id := by
  obtain ⟨-, -, -, v, -, hs1⟩ := verifyDiagnosis_ok env s cid clear dpf snd s1 h
  rw [hs1]
  exact lookupCase_setCase_ne _ _ _ _ hid

theorem execAction_of_error (env : FHEEnv) (s : ContractState) (a : Action)
    (e : ContractError) (h : runAction env s a = .error e) :
    execAction env s a = s := by
  simp [execAction, h]

theorem execAction_of_ok (env : FHEEnv) (s : ContractState) (a : Action)
    (s1 : ContractState) (h : runAction env s a = .ok s1) :
    execAction env s a = s1 := by
  simp [execAction, h]

/-! ### Frame lemmas: which fields a transaction can touch -/

theorem immutableFieldsEq_refl (c : MedicalCase) : immutableFieldsEq c c :=
  ⟨rfl, rfl, rfl, rfl, rfl, rfl⟩

theorem immutableFieldsEq_trans {c c2 c3 : MedicalCase}
    (h : immutableFieldsEq c c2) (h2 : immutableFieldsEq c2 c3) :
    immutableFieldsEq c c3 := by
  obtain ⟨a1, a2, a3, a4, a5, a6⟩ := h
  obtain ⟨b1, b2, b3, b4, b5, b6⟩ := h2
  exact ⟨b1.trans a1, b2.trans a2, b3.trans a3, b4.trans a4, b5.trans a5, b6.trans a6⟩

/-- One transaction against a key whose stored record has a non-empty
`patientId` leaves the creation-time fields of that record unchanged and can
only raise `isVerified`. -/
theorem frameStep (env : FHEEnv) (s : ContractState) (a : Action) (id : String)
    (hp : (lookupCase s.medicalCases id).patientId ≠ "") :
    immutableFieldsEq (lookupCase s.medicalCases id)
      (lookupCase (execAction env s a).medicalCases id) ∧
    ((lookupCase s.medicalCases id).isVerified = true →
      (lookupCase (execAction env s a).medicalCases id).isVerified = true) := by
  cases hr : runAction env s a with
  | error e =>
    rw [execAction_of_error env s a e hr]
    exact ⟨immutableFieldsEq_refl _, fun h => h⟩
  | ok s2 =>
    rw [execAction_of_ok env s a s2 hr]
    cases a with
    | create cid pid ct pf n mh snd ts =>
      have hc := createMedicalCase_ok env s cid pid ct pf n mh snd ts s2
        (by simpa [runAction] using hr)
      have hid : id ≠ cid := by
        rintro rfl
        exact hp hc.1
      rw [createMedicalCase_ok_lookup_ne env s cid pid ct pf n mh snd ts s2
        (by simpa [runAction] using hr) id hid]
      exact ⟨immutableFieldsEq_refl _, fun h => h⟩
    | verify cid clear dpf snd =>
      by_cases hid : id = cid
      · subst hid
        obtain ⟨v, -, hl⟩ := verifyDiagnosis_ok_lookup_self env s id clear dpf snd s2
          (by simpa [runAction] using hr)
        rw [hl]
        exact ⟨⟨rfl, rfl, rfl, rfl, rfl, rfl⟩, fun _ => rfl⟩
      · rw [verifyDiagnosis_ok_lookup_ne env s cid clear dpf snd s2
          (by simpa [runAction] using hr) id hid]
        exact ⟨immutableFieldsEq_refl _, fun h => h⟩

/-- Trace-level frame property, by induction over `frameStep`. -/
theorem frameTrace (env : FHEEnv) (tr : List Action) :
    ∀ s : ContractState, ∀ id : String,
      (lookupCase s.medicalCases id).patientId ≠ "" →
      immutableFieldsEq (lookupCase s.medicalCases id)
        (lookupCase (execTrace env s tr).medicalCases id) ∧
      ((lookupCase s.medicalCases id).isVerified = true →
        (lookupCase (execTrace env s tr).medicalCases id).isVerified = true) := by
  induction tr with
  | nil =>
    intro s id _
    exact ⟨immutableFieldsEq_refl _, fun h => h⟩
  | cons a rest ih =>
    intro s id hp
    obtain ⟨hframe, hmono⟩ := frameStep env s a id hp
    have hp2 : (lookupCase (execAction env s a).medicalCases id).patientId ≠ "" := by
      rw [hframe.1]; exact hp
    obtain ⟨hframe2, hmono2⟩ := ih (execAction env s a) id hp2
    rw [execTrace]
    refine ⟨immutableFieldsEq_trans hframe hframe2, fun h => hmono2 (hmono h)⟩

/-! ### The id list over traces -/

/-- After a trace, the id array is the starting array extended by exactly the
`caseId`s of the successful creates, in order: append-only, no removals. -/
theorem caseIds_execTrace (env : FHEEnv) (tr : List Action) :
    ∀ s : ContractState,
      (execTrace env s tr).caseIds = s.caseIds ++ insertedIds env s tr := by
  induction tr with
  | nil => intro s; simp [execTrace, insertedIds]
  | cons a rest ih =>
    intro s
    rw [execTrace]
    cases a with
    | create cid pid ct pf n mh snd ts =>
      cases hr : runAction env s (.create cid pid ct pf n mh snd ts) with
      | ok s2 =>
        have hx := execAction_of_ok env s _ s2 hr
        have hcs := createMedicalCase_ok_caseIds env s cid pid ct pf n mh snd ts s2
          (by simpa [runAction] using hr)
        rw [hx, ih s2, hcs, insertedIds]
        simp [hr, exceptOk, hx]
      | error e =>
        have hx := execAction_of_error env s _ e hr
        rw [hx, ih s, insertedIds]
        simp [hr, exceptOk, hx]
    | verify cid clear dpf snd =>
      cases hr : runAction env s (.verify cid clear dpf snd) with
      | ok s2 =>
        have hx := execAction_of_ok env s _ s2 hr
        have hcs := verifyDiagnosis_ok_caseIds env s cid clear dpf snd s2
          (by simpa [runAction] using hr)
        rw [hx, ih s2, hcs, insertedIds]
        simp [hx]
      | error e =>
        have hx := execAction_of_error env s _ e hr
        rw [hx, ih s, insertedIds]
        simp [hx]

/-- A trace of `verifyDiagnosis` transactions never touches the id array. -/
theorem caseIds_execTrace_allVerify (env : FHEEnv) (tr : List Action) :
    ∀ s : ContractState, allVerify tr = true →
      (execTrace env s tr).caseIds = s.caseIds := by
  induction tr with
  | nil => intro s _; rfl
  | cons a rest ih =>
    intro s hall
    simp only [allVerify, List.all_cons, Bool.and_eq_true] at hall
    cases a with
    | create cid pid ct pf n mh snd ts => simp at hall
    | verify cid clear dpf snd =>
      rw [execTrace]
      have hrest : allVerify rest = true := hall.2
      rw [ih (execAction env s (.verify cid clear dpf snd)) hrest]
      cases hr : runAction env s (.verify cid clear dpf snd) with
      | ok s2 =>
        rw [execAction_of_ok env s _ s2 hr]
        exact verifyDiagnosis_ok_caseIds env s cid clear dpf snd s2
          (by simpa [runAction] using hr)
      | error e =>
        rw [execAction_of_error env s _ e hr]

/-! ### Keys never successfully created stay absent -/

theorem emptyPatient_step (env : FHEEnv) (s : ContractState) (a : Action) (id : String)
    (hp : (lookupCase s.medicalCases id).patientId = "")
    (hnc : successfulCreateOf env s a id = false) :
    (lookupCase (execAction env s a).medicalCases id).patientId = "" := by
  cases hr : runAction env s a with
  | error e => rw [execAction_of_error env s a e hr]; exact hp
  | ok s2 =>
    rw [execAction_of_ok env s a s2 hr]
    cases a with
    | create cid pid ct pf n mh snd ts =>
      have hne : id ≠ cid := by
        rintro rfl
        simp [successfulCreateOf, hr, exceptOk] at hnc
      rw [createMedicalCase_ok_lookup_ne env s cid pid ct pf n mh snd ts s2
        (by simpa [runAction] using hr) id hne]
      exact hp
    | verify cid clear dpf snd =>
      have hv := verifyDiagnosis_ok env s cid clear dpf snd s2
        (by simpa [runAction] using hr)
      have hne : id ≠ cid := by
        rintro rfl
        exact hv.1 hp
      rw [verifyDiagnosis_ok_lookup_ne env s cid clear dpf snd s2
        (by simpa [runAction] using hr) id hne]
      exact hp

theorem emptyPatient_trace (env : FHEEnv) (tr : List Action) :
    ∀ s : ContractState, ∀ id : String,
      (lookupCase s.medicalCases id).patientId = "" →
      neverCreated env s tr id = true →
      (lookupCase (execTrace env s tr).medicalCases id).patientId = "" := by
  induction tr with
  | nil => intro s id hp _; exact hp
  | cons a rest ih =>
    intro s id hp hnc
    simp only [neverCreated, Bool.and_eq_true, Bool.not_eq_true'] at hnc
    rw [execTrace]
    exact ih _ id (emptyPatient_step env s a id hp hnc.1) hnc.2

/-! ### Invariant preservation -/

theorem goodState_initial : GoodState initialState := by
  refine ⟨by simp [initialState], ?_⟩
  intro id hid
  simp [initialState] at hid

theorem goodState_step (env : FHEEnv) (s : ContractState) (a : Action)
    (hg : GoodState s) (hne : nonEmptyPatientOnCreate a = true) :
    GoodState (execAction env s a) := by
  cases hr : runAction env s a with
  | error e => rw [execAction_of_error env s a e hr]; exact hg
  | ok s2 =>
    rw [execAction_of_ok env s a s2 hr]
    cases a with
    | create cid pid ct pf n mh snd ts =>
      have hr' : createMedicalCase env s cid pid ct pf n mh snd ts = .ok s2 := by
        simpa [runAction] using hr
      have hempty := (createMedicalCase_ok env s cid pid ct pf n mh snd ts s2 hr').1
      have hpid : pid ≠ "" := by simpa [nonEmptyPatientOnCreate] using hne
      have hnotmem : cid ∉ s.caseIds := fun hmem => (hg.2 cid hmem) hempty
      have hcs := createMedicalCase_ok_caseIds env s cid pid ct pf n mh snd ts s2 hr'
      constructor
      · rw [hcs]
        simp [List.nodup_append, hg.1, hnotmem]
      · intro id hid2
        rw [hcs] at hid2
        by_cases hidc : id = cid
        · subst hidc
          obtain ⟨hdl, -, hl⟩ :=
            createMedicalCase_ok_lookup_self env s id pid ct pf n mh snd ts s2 hr'
          rw [hl]
          exact hpid
        · rw [createMedicalCase_ok_lookup_ne env s cid pid ct pf n mh snd ts s2 hr' id hidc]
          have hmem : id ∈ s.caseIds := by
            rcases List.mem_append.mp hid2 with h | h
            · exact h
            · exact absurd (by simpa using h) hidc
          exact hg.2 id hmem
    | verify cid clear dpf snd =>
      have hr' : verifyDiagnosis env s cid clear dpf snd = .ok s2 := by
        simpa [runAction] using hr
      have hcs := verifyDiagnosis_ok_caseIds env s cid clear dpf snd s2 hr'
      constructor
      · rw [hcs]; exact hg.1
      · intro id hid2
        rw [hcs] at hid2
        by_cases hidc : id = cid
        · subst hidc
          obtain ⟨v, -, hl⟩ := verifyDiagnosis_ok_lookup_self env s id clear dpf snd s2 hr'
          rw [hl]
          simpa [verifiedUpdate] using hg.2 id hid2
        · rw [verifyDiagnosis_ok_lookup_ne env s cid clear dpf snd s2 hr' id hidc]
          exact hg.2 id hid2

theorem goodState_trace (env : FHEEnv) (tr : List Action) :
    ∀ s : ContractState, GoodState s → allCreatesNonEmptyPatient tr = true →
      GoodState (execTrace env s tr) := by
  induction tr with
  | nil => intro s hg _; exact hg
  | cons a rest ih =>
    intro s hg hall
    simp only [allCreatesNonEmptyPatient, List.all_cons, Bool.and_eq_true] at hall
    rw [execTrace]
    exact ih _ (goodState_step env s a hg hall.1) hall.2

/-! ### abi encode/decode roundtrip -/

theorem abiDecodeUint32_encodeUint32 (v : Nat) (hv : v < 4294967296) :
    abiDecodeUint32 (encodeUint32 v) = some v := by
  simp only [encodeUint32, abiDecodeUint32]
  congr 1
  omega

/-! ### Claim theorems -/

/-- Claim C9: the outcome of `verifyDiagnosis` is independent of the caller
identity: for every store state, caseId, cleartext encoding and proof, two
calls differing only in the sender yield the same success/failure result and
the same resulting store state. -/
theorem claim_C9_verify_caller_independent (env : FHEEnv) (s : ContractState)
    (caseId : String) (clear dpf : Bytes) (sender1 sender2 : Nat) :
    verifyDiagnosis env s caseId clear dpf sender1 =
      verifyDiagnosis env s caseId clear dpf sender2 ∧
    execAction env s (.verify caseId clear dpf sender1) =
      execAction env s (.verify caseId clear dpf sender2) :=
  ⟨rfl, rfl⟩

/-- Claim C8: on every successful `createMedicalCase`, the stored ciphertext
handle is granted to the contract itself (`FHE.allowThis`) and marked publicly
decryptable (`FHE.makePubliclyDecryptable`) before the call returns. -/
theorem claim_C8_acl_on_create (env : FHEEnv) (s : ContractState)
    (cid pid : String) (ct pf : Bytes) (n : Nat) (mh : String) (sd ts : Nat)
    (s1 : ContractState)
    (h : createMedicalCase env s cid pid ct pf n mh sd ts = .ok s1) :
    (lookupCase s1.medicalCases cid).encryptedDiagnosis ∈ s1.aclAllowThis ∧
    (lookupCase s1.medicalCases cid).encryptedDiagnosis ∈ s1.aclPubliclyDecryptable := by
  obtain ⟨hempty, hdl, hfe, hinit, hs1⟩ :=
    createMedicalCase_ok env s cid pid ct pf n mh sd ts s1 h
  subst hs1
  rw [lookupCase_setCase_self]
  constructor <;> simp

/-- Witness for C8 at a concrete input. -/
theorem claim_C8_witness :
    (lookupCase stateA.medicalCases "A").encryptedDiagnosis ∈ stateA.aclAllowThis ∧
    (lookupCase stateA.medicalCases "A").encryptedDiagnosis ∈ stateA.aclPubliclyDecryptable :=
  claim_C8_acl_on_create acceptEnv initialState "A" "p" [2] [3] 5 "h" 7 11 stateA (by rfl)

/-- Claim C2: after a successful `verifyDiagnosis(caseId, enc(v), proof)`,
`getMedicalCase(caseId)` returns isVerified = true and decryptedDiagnosis = v,
and every subsequent `verifyDiagnosis` on that case fails AlreadyVerified
while the stored state (hence decryptedDiagnosis) stays unchanged. -/
theorem claim_C2_monotonic_verification (env : FHEEnv) (s : ContractState)
    (id : String) (v : Nat) (dpf : Bytes) (snd : Nat) (s1 : ContractState)
    (hv : v < 4294967296)
    (h : verifyDiagnosis env s id (encodeUint32 v) dpf snd = .ok s1) :
    (lookupCase s1.medicalCases id).isVerified = true ∧
    (lookupCase s1.medicalCases id).decryptedDiagnosis = v ∧
    getMedicalCase s1 id = .ok ((lookupCase s1.medicalCases id).patientId,
      (lookupCase s1.medicalCases id).caseId,
      (lookupCase s1.medicalCases id).medicalHistory,
      (lookupCase s1.medicalCases id).specialist,
      (lookupCase s1.medicalCases id).timestamp, true, v) ∧
    (∀ clear2 dpf2 snd2,
      verifyDiagnosis env s1 id clear2 dpf2 snd2 = .error .AlreadyVerified ∧
      execAction env s1 (.verify id clear2 dpf2 snd2) = s1) := by
  obtain ⟨hpne, hver0, hsig, v0, hdec0, hs1⟩ :=
    verifyDiagnosis_ok env s id (encodeUint32 v) dpf snd s1 h
  have hv0 : v0 = v :=
    Option.some.inj (hdec0.symm.trans (abiDecodeUint32_encodeUint32 v hv))
  subst hv0
  have hlook : lookupCase s1.medicalCases id =
      verifiedUpdate (lookupCase s.medicalCases id) v0 := by
    rw [hs1]; exact lookupCase_setCase_self _ _ _
  have hpne1 : (lookupCase s1.medicalCases id).patientId ≠ "" := by
    rw [hlook]; simpa [verifiedUpdate] using hpne
  have hver1 : (lookupCase s1.medicalCases id).isVerified = true := by
    rw [hlook]; rfl
  have hdec1 : (lookupCase s1.medicalCases id).decryptedDiagnosis = v0 := by
    rw [hlook]; rfl
  refine ⟨hver1, hdec1, ?_, ?_⟩
  · rw [getMedicalCase, if_neg hpne1, hver1, hdec1]
  · intro clear2 dpf2 snd2
    have herr : verifyDiagnosis env s1 id clear2 dpf2 snd2 = .error .AlreadyVerified := by
      rw [verifyDiagnosis, if_neg hpne1, if_pos hver1]
    exact ⟨herr, execAction_of_error env s1 _ .AlreadyVerified (by simpa [runAction] using herr)⟩

/-- Witness for C2 at a concrete input: create "A", verify it with cleartext
9, observe the verified view and that re-verification fails. -/
theorem claim_C2_witness :
    (lookupCase stateA9.medicalCases "A").isVerified = true ∧
    (lookupCase stateA9.medicalCases "A").decryptedDiagnosis = 9 ∧
    verifyDiagnosis acceptEnv stateA9 "A" (encodeUint32 7) [6] 14 =
      .error .AlreadyVerified := by
  have h := claim_C2_monotonic_verification acceptEnv stateA "A" 9 [6] 13 stateA9
    (by decide) (by rfl)
  exact ⟨h.1, h.2.1, (h.2.2.2 (encodeUint32 7) [6] 14).1⟩

/-- Counterexample to C1 as stated: the first create for "X" passes an empty
patientId and succeeds; the second create with the same caseId then succeeds
instead of failing AlreadyExists, and it overwrites the stored record. -/
theorem claim_C1_counterexample :
    createMedicalCase acceptEnv initialState "X" "" [2] [3] 0 "" 4 5 = .ok stateX0 ∧
    createMedicalCase acceptEnv stateX0 "X" "p2" [2] [3] 1 "h2" 2 3 = .ok stateX01 ∧
    createMedicalCase acceptEnv stateX0 "X" "p2" [2] [3] 1 "h2" 2 3 ≠ .error .AlreadyExists ∧
    lookupCase stateX01.medicalCases "X" ≠ lookupCase stateX0.medicalCases "X" := by
  refine ⟨rfl, rfl, ?_, ?_⟩
  · intro hc
    rw [show createMedicalCase acceptEnv stateX0 "X" "p2" [2] [3] 1 "h2" 2 3
          = .ok stateX01 from rfl] at hc
    exact Except.noConfusion hc
  · decide

/-- Claim C1 (amended): provided the first call stored a non-empty patientId,
calling createMedicalCase again with the same caseId always fails with
AlreadyExists (revert string "Medical case already exists"), regardless of the
second call's arguments, and storage — hence the record stored by the first
call — is left unchanged. -/
theorem claim_C1_amended (env : FHEEnv) (s : ContractState)
    (cid pid1 : String) (ct1 pf1 : Bytes) (n1 : Nat) (mh1 : String) (sd1 ts1 : Nat)
    (s1 : ContractState)
    (hpid : pid1 ≠ "")
    (h1 : createMedicalCase env s cid pid1 ct1 pf1 n1 mh1 sd1 ts1 = .ok s1) :
    ∀ pid2 ct2 pf2 n2 mh2 sd2 ts2,
      createMedicalCase env s1 cid pid2 ct2 pf2 n2 mh2 sd2 ts2 = .error .AlreadyExists ∧
      execAction env s1 (.create cid pid2 ct2 pf2 n2 mh2 sd2 ts2) = s1 ∧
      ContractError.AlreadyExists.message = "Medical case already exists" := by
  intro pid2 ct2 pf2 n2 mh2 sd2 ts2
  obtain ⟨hdl, hfe, hl⟩ :=
    createMedicalCase_ok_lookup_self env s cid pid1 ct1 pf1 n1 mh1 sd1 ts1 s1 h1
  have hpne : (lookupCase s1.medicalCases cid).patientId ≠ "" := by
    rw [hl]; exact hpid
  have herr : createMedicalCase env s1 cid pid2 ct2 pf2 n2 mh2 sd2 ts2
      = .error .AlreadyExists := by
    rw [createMedicalCase, if_pos hpne]
  exact ⟨herr,
    execAction_of_error env s1 _ .AlreadyExists (by simpa [runAction] using herr), rfl⟩

/-- Witness for the amended C1 at a concrete input. -/
theorem claim_C1_witness :
    "p" ≠ "" ∧
    createMedicalCase acceptEnv stateA "A" "q" [9] [9] 1 "k" 2 3 = .error .AlreadyExists := by
  have h := claim_C1_amended acceptEnv initialState "A" "p" [2] [3] 5 "h" 7 11 stateA
    (by decide) (by rfl) "q" [9] [9] 1 "k" 2 3
  exact ⟨by decide, h.1⟩

/-- Claim C10: existence is decided solely by the stored patientId being
non-empty.  A create with an empty patientId succeeds, stores the record and
appends the id; yet verify/getMedicalCase/getEncryptedDiagnosis on that id all
fail NotFound; and a later create with the same caseId does not hit the
duplicate guard — when it succeeds it overwrites the record and appends the id
a second time. -/
theorem claim_C10_empty_patient_existence (env : FHEEnv) (s : ContractState)
    (cid : String) (ct1 pf1 : Bytes) (n1 : Nat) (mh1 : String) (sd1 ts1 : Nat)
    (s1 : ContractState)
    (h1 : createMedicalCase env s cid "" ct1 pf1 n1 mh1 sd1 ts1 = .ok s1) :
    s1.caseIds = s.caseIds ++ [cid] ∧
    (∃ hdl, env.fromExternal ct1 pf1 = some hdl ∧
      lookupCase s1.medicalCases cid =
        { patientId := "", encryptedDiagnosis := hdl, caseId := n1,
          medicalHistory := mh1, specialist := sd1, timestamp := ts1,
          decryptedDiagnosis := 0, isVerified := false }) ∧
    (∀ clear dpf snd, verifyDiagnosis env s1 cid clear dpf snd = .error .NotFound) ∧
    getMedicalCase s1 cid = .error .NotFound ∧
    getEncryptedDiagnosis s1 cid = .error .NotFound ∧
    (∀ pid2 ct2 pf2 n2 mh2 sd2 ts2,
      createMedicalCase env s1 cid pid2 ct2 pf2 n2 mh2 sd2 ts2 ≠ .error .AlreadyExists ∧
      ∀ s2, createMedicalCase env s1 cid pid2 ct2 pf2 n2 mh2 sd2 ts2 = .ok s2 →
        s2.caseIds = s1.caseIds ++ [cid] ∧
        ∃ hdl2, env.fromExternal ct2 pf2 = some hdl2 ∧
          lookupCase s2.medicalCases cid =
            { patientId := pid2, encryptedDiagnosis := hdl2, caseId := n2,
              medicalHistory := mh2, specialist := sd2, timestamp := ts2,
              decryptedDiagnosis := 0, isVerified := false }) := by
  have hcs := createMedicalCase_ok_caseIds env s cid "" ct1 pf1 n1 mh1 sd1 ts1 s1 h1
  obtain ⟨hdl, hfe, hl⟩ :=
    createMedicalCase_ok_lookup_self env s cid "" ct1 pf1 n1 mh1 sd1 ts1 s1 h1
  have hempty1 : (lookupCase s1.medicalCases cid).patientId = "" := by
    rw [hl]
  refine ⟨hcs, ⟨hdl, hfe, hl⟩, ?_, ?_, ?_, ?_⟩
  · intro clear dpf snd
    rw [verifyDiagnosis, if_pos hempty1]
  · rw [getMedicalCase, if_pos hempty1]
  · rw [getEncryptedDiagnosis, if_pos hempty1]
  · intro pid2 ct2 pf2 n2 mh2 sd2 ts2
    constructor
    · rw [createMedicalCase, if_neg (fun hc => hc hempty1)]
      cases hfe2 : env.fromExternal ct2 pf2 with
      | none => intro hc; exact ContractError.noConfusion (Except.error.inj hc)
      | some hdl2 =>
        by_cases hin : env.isInitialized hdl2 = true
        · simp only [hin, not_true_eq_false, if_false]
          intro hc
          exact Except.noConfusion hc
        · simp only [hin, not_false_eq_true, if_true]
          intro hc
          exact ContractError.noConfusion (Except.error.inj hc)
    · intro s2 h2
      have hcs2 := createMedicalCase_ok_caseIds env s1 cid pid2 ct2 pf2 n2 mh2 sd2 ts2 s2 h2
      obtain ⟨hdl2, hfe2, hl2⟩ :=
        createMedicalCase_ok_lookup_self env s1 cid pid2 ct2 pf2 n2 mh2 sd2 ts2 s2 h2
      exact ⟨hcs2, hdl2, hfe2, hl2⟩

/-- Witness for C10 at a concrete input: create "X" with empty patientId, see
it listed yet NotFound, then re-create the same id. -/
theorem claim_C10_witness :
    stateX0.caseIds = ["X"] ∧
    getMedicalCase stateX0 "X" = .error .NotFound ∧
    createMedicalCase acceptEnv stateX0 "X" "p2" [2] [3] 1 "h2" 2 3 ≠ .error .AlreadyExists ∧
    stateX01.caseIds = ["X", "X"] := by
  have h := claim_C10_empty_patient_existence acceptEnv initialState "X" [2] [3] 0 "" 4 5
    stateX0 (by rfl)
  have h6 := h.2.2.2.2.2 "p2" [2] [3] 1 "h2" 2 3
  have hx01 : createMedicalCase acceptEnv stateX0 "X" "p2" [2] [3] 1 "h2" 2 3
      = .ok stateX01 := by rfl
  refine ⟨by simpa [initialState] using h.1, h.2.2.2.1, h6.1, ?_⟩
  have := (h6.2 stateX01 hx01).1
  rw [this, h.1]
  rfl

/-- Counterexample to C3 as stated: two creates for "X" with empty patientIds
both succeed, so "X" appears twice in getAllCaseIds(). -/
theorem claim_C3_counterexample :
    getAllCaseIds (execTrace acceptEnv initialState [createX0, createX0]) = ["X", "X"] ∧
    ¬ (execTrace acceptEnv initialState [createX0, createX0]).caseIds.Nodup := by
  refine ⟨rfl, ?_⟩
  rw [show (execTrace acceptEnv initialState [createX0, createX0]).caseIds
        = ["X", "X"] from rfl]
  decide

/-- Claim C3 (amended): the caseIds list is append-only and is exactly the
ordered list of keys successfully inserted; it is duplicate-free provided
every create of the trace carries a non-empty patientId (creates with an empty
patientId can re-insert an existing key). -/
theorem claim_C3_amended (env : FHEEnv) (tr : List Action)
    (h : allCreatesNonEmptyPatient tr = true) :
    getAllCaseIds (execTrace env initialState tr) = insertedIds env initialState tr ∧
    (execTrace env initialState tr).caseIds.Nodup := by
  constructor
  · rw [getAllCaseIds, caseIds_execTrace]
    simp [initialState]
  · exact (goodState_trace env tr initialState goodState_initial h).1

/-- Witness for the amended C3 at a concrete trace. -/
theorem claim_C3_witness :
    allCreatesNonEmptyPatient [createA, createX1] = true ∧
    getAllCaseIds (execTrace acceptEnv initialState [createA, createX1]) =
      insertedIds acceptEnv initialState [createA, createX1] ∧
    (execTrace acceptEnv initialState [createA, createX1]).caseIds.Nodup := by
  have h := claim_C3_amended acceptEnv [createA, createX1] (by rfl)
  exact ⟨by rfl, h.1, h.2⟩

/-- Counterexample to C4 as stated: a record is inserted for "X" (with an
empty patientId), and a later createMedicalCase changes its patientId and its
numeric case identifier. -/
theorem claim_C4_counterexample :
    runAction acceptEnv initialState createX0 = .ok stateX0 ∧
    runAction acceptEnv stateX0 createX1 = .ok stateX01 ∧
    (lookupCase stateX0.medicalCases "X").patientId = "" ∧
    (lookupCase stateX01.medicalCases "X").patientId = "p2" ∧
    (lookupCase stateX01.medicalCases "X").caseId ≠ (lookupCase stateX0.medicalCases "X").caseId := by
  refine ⟨rfl, rfl, rfl, rfl, by decide⟩

/-- Claim C4 (amended): once a record with a non-empty patientId is stored for
a key, no sequence of operations changes its patientId, encryptedDiagnosis
handle, numeric case identifier, medicalHistory, specialist or timestamp, and
isVerified never falls back from true to false. -/
theorem claim_C4_amended (env : FHEEnv) (s : ContractState) (tr : List Action)
    (id : String)
    (hp : (lookupCase s.medicalCases id).patientId ≠ "") :
    immutableFieldsEq (lookupCase s.medicalCases id)
      (lookupCase (execTrace env s tr).medicalCases id) ∧
    ((lookupCase s.medicalCases id).isVerified = true →
      (lookupCase (execTrace env s tr).medicalCases id).isVerified = true) :=
  frameTrace env tr s id hp

/-- Witness for the amended C4 at a concrete input. -/
theorem claim_C4_witness :
    (lookupCase stateA.medicalCases "A").patientId ≠ "" ∧
    immutableFieldsEq (lookupCase stateA.medicalCases "A")
      (lookupCase (execTrace acceptEnv stateA
        [Action.verify "A" (encodeUint32 9) [6] 13]).medicalCases "A") := by
  have hp : (lookupCase stateA.medicalCases "A").patientId ≠ "" := by decide
  exact ⟨hp,
    (claim_C4_amended acceptEnv stateA [Action.verify "A" (encodeUint32 9) [6] 13] "A" hp).1⟩

/-- Claim C5: every operation validates before mutating — a failed
createMedicalCase (duplicate id or invalid ciphertext) or a failed
verifyDiagnosis (missing case, already verified, attestation rejected, or
malformed cleartext) leaves storage exactly as it was. -/
theorem claim_C5_no_partial_writes (env : FHEEnv) (s : ContractState)
    (cid pid : String) (ct pf : Bytes) (n : Nat) (mh : String) (sd ts : Nat)
    (clear dpf : Bytes) (snd : Nat) (e1 e2 : ContractError) :
    (createMedicalCase env s cid pid ct pf n mh sd ts = .error e1 →
      execAction env s (.create cid pid ct pf n mh sd ts) = s ∧
      (e1 = .AlreadyExists ∨ e1 = .InvalidCiphertext)) ∧
    (verifyDiagnosis env s cid clear dpf snd = .error e2 →
      execAction env s (.verify cid clear dpf snd) = s ∧
      (e2 = .NotFound ∨ e2 = .AlreadyVerified ∨ e2 = .InvalidAttestation ∨
        e2 = .MalformedInput)) := by
  constructor
  · intro h
    refine ⟨execAction_of_error env s _ e1 (by simpa [runAction] using h), ?_⟩
    rw [createMedicalCase] at h
    split at h
    · exact Or.inl (Except.error.inj h).symm
    · split at h
      · exact Or.inr (Except.error.inj h).symm
      · split at h
        · exact Or.inr (Except.error.inj h).symm
        · exact Except.noConfusion h
  · intro h
    refine ⟨execAction_of_error env s _ e2 (by simpa [runAction] using h), ?_⟩
    simp only [verifyDiagnosis] at h
    split at h
    · exact Or.inl (Except.error.inj h).symm
    · split at h
      · exact Or.inr (Or.inl (Except.error.inj h).symm)
      · split at h
        · exact Or.inr (Or.inr (Or.inl (Except.error.inj h).symm))
        · split at h
          · exact Or.inr (Or.inr (Or.inr (Except.error.inj h).symm))
          · exact Except.noConfusion h

/-- Witness for C5 at concrete failing inputs: a create whose ciphertext the
coprocessor rejects, and a verify on a missing case. -/
theorem claim_C5_witness :
    execAction rejectEnv initialState (.create "A" "p" [2] [3] 5 "h" 7 11) = initialState ∧
    execAction rejectEnv initialState (.verify "A" (encodeUint32 1) [6] 0) = initialState := by
  have h := claim_C5_no_partial_writes rejectEnv initialState "A" "p" [2] [3] 5 "h" 7 11
    (encodeUint32 1) [6] 0 .InvalidCiphertext .NotFound
  exact ⟨(h.1 (by rfl)).1, (h.2 (by rfl)).1⟩

/-- Claim C6: on a caseId never successfully created during the trace,
verifyDiagnosis, getMedicalCase and getEncryptedDiagnosis all fail NotFound,
and the failing verify mutates nothing. -/
theorem claim_C6_not_found_closure (env : FHEEnv) (tr : List Action) (id : String)
    (h : neverCreated env initialState tr id = true) :
    (∀ clear dpf snd,
      verifyDiagnosis env (execTrace env initialState tr) id clear dpf snd = .error .NotFound ∧
      execAction env (execTrace env initialState tr) (.verify id clear dpf snd) =
        execTrace env initialState tr) ∧
    getMedicalCase (execTrace env initialState tr) id = .error .NotFound ∧
    getEncryptedDiagnosis (execTrace env initialState tr) id = .error .NotFound := by
  have hempty : (lookupCase (execTrace env initialState tr).medicalCases id).patientId = "" :=
    emptyPatient_trace env tr initialState id rfl h
  refine ⟨?_, ?_, ?_⟩
  · intro clear dpf snd
    have herr : verifyDiagnosis env (execTrace env initialState tr) id clear dpf snd
        = .error .NotFound := by
      rw [verifyDiagnosis, if_pos hempty]
    exact ⟨herr, execAction_of_error env _ _ .NotFound (by simpa [runAction] using herr)⟩
  · rw [getMedicalCase, if_pos hempty]
  · rw [getEncryptedDiagnosis, if_pos hempty]

/-- Witness for C6 at a concrete input: after creating only "A", every lookup
of "B" fails NotFound. -/
theorem claim_C6_witness :
    neverCreated acceptEnv initialState [createA] "B" = true ∧
    getMedicalCase (execTrace acceptEnv initialState [createA]) "B" = .error .NotFound ∧
    getEncryptedDiagnosis (execTrace acceptEnv initialState [createA]) "B" = .error .NotFound := by
  have h := claim_C6_not_found_closure acceptEnv [createA] "B" (by rfl)
  exact ⟨by rfl, h.2.1, h.2.2⟩

/-- Claim C7: creating "A", "B", "C" in that order from the empty store makes
getAllCaseIds() return exactly ["A","B","C"]; any subsequent all-verify trace
leaves that sequence unchanged; with no cases, getAllCaseIds() is empty. -/
theorem claim_C7_enumeration_order (env : FHEEnv)
    (pid1 pid2 pid3 : String) (ct1 pf1 ct2 pf2 ct3 pf3 : Bytes)
    (n1 n2 n3 : Nat) (mh1 mh2 mh3 : String) (sd1 sd2 sd3 ts1 ts2 ts3 : Nat)
    (s1 s2 s3 : ContractState)
    (h1 : createMedicalCase env initialState "A" pid1 ct1 pf1 n1 mh1 sd1 ts1 = .ok s1)
    (h2 : createMedicalCase env s1 "B" pid2 ct2 pf2 n2 mh2 sd2 ts2 = .ok s2)
    (h3 : createMedicalCase env s2 "C" pid3 ct3 pf3 n3 mh3 sd3 ts3 = .ok s3) :
    getAllCaseIds initialState = [] ∧
    getAllCaseIds s3 = ["A", "B", "C"] ∧
    ∀ vtr : List Action, allVerify vtr = true →
      getAllCaseIds (execTrace env s3 vtr) = ["A", "B", "C"] := by
  have hc1 := createMedicalCase_ok_caseIds env initialState "A" pid1 ct1 pf1 n1 mh1 sd1 ts1 s1 h1
  have hc2 := createMedicalCase_ok_caseIds env s1 "B" pid2 ct2 pf2 n2 mh2 sd2 ts2 s2 h2
  have hc3 := createMedicalCase_ok_caseIds env s2 "C" pid3 ct3 pf3 n3 mh3 sd3 ts3 s3 h3
  have hids : getAllCaseIds s3 = ["A", "B", "C"] := by
    rw [getAllCaseIds, hc3, hc2, hc1]
    rfl
  refine ⟨rfl, hids, ?_⟩
  intro vtr hv
  rw [getAllCaseIds, caseIds_execTrace_allVerify env vtr s3 hv]
  exact hids

/-- Witness for C7 at a concrete input: create "A", "B", "C", then verify "B". -/
theorem claim_C7_witness :
    getAllCaseIds stateABC = ["A", "B", "C"] ∧
    getAllCaseIds (execTrace acceptEnv stateABC
      [Action.verify "B" (encodeUint32 2) [6] 1]) = ["A", "B", "C"] := by
  have h := claim_C7_enumeration_order acceptEnv "p" "q" "r" [2] [3] [2] [3] [2] [3]
    5 6 7 "h" "i" "j" 7 8 9 11 12 13 stateA stateAB stateABC (by rfl) (by rfl) (by rfl)
  exact ⟨h.2.1, h.2.2 [Action.verify "B" (encodeUint32 2) [6] 1] (by rfl)⟩

end SecondOpFHE
